import Mathlib

/-!
Verification development for the led-matrix-battery repository.

The Python sources are shallowly embedded: pure functions become Lean
functions, raising code returns `Except PyError`, machine iteration becomes
folds over explicit index lists, and Python's `%` on a positive modulus is
`Int.emod` (both give a representative in `[0, modulus)`).
-/

/-- Python exception classes that the embedded code can raise. -/
inductive PyError where
  | nameError
  | typeError
  | valueError
  | keyError
  | indexError
deriving DecidableEq, Repr

namespace LedMatrix

/-! ## Grid model
Embedded from `src/led_matrix_battery/led_matrix/display/grid/grid.py` and
`src/led_matrix_battery/led_matrix/display/grid/helpers.py`.
A grid is column-major: `grid[x][y]`, `width` columns of `height` cells. -/

/-- Embeds `is_valid_grid` (display/grid/helpers.py): a list of `width`
columns, each a list of `height` cells, every cell 0 or 1. -/
def is_valid_grid (grid : List (List Int)) (width height : Nat) : Bool :=
  decide (grid.length = width) &&
    grid.all fun col =>
      decide (col.length = height) && col.all fun cell => decide (cell = 0) || decide (cell = 1)

/-- Modelled from the spec: `generate_blank_grid` is imported by
`grid.py` from `.helpers` but its definition is not under `src/`; the spec
("constructed blank (all fill_value)") and the repository's own test patch
(`tests/test_grid.py`: `[[fill_value for _ in range(height)] for _ in
range(width)]`) give a blank column-major grid of `width` columns, each
`height` copies of `fill_value`. -/
def generate_blank_grid (width height : Nat) (fill_value : Int) : List (List Int) :=
  List.replicate width (List.replicate height fill_value)

/-- State of a `Grid` instance: `_width`, `_height`, `_fill_value`, `_grid`. -/
structure Grid where
  width : Nat
  height : Nat
  fill_value : Int
  grid : List (List Int)
deriving DecidableEq, Repr

/-- Embeds `Grid.__init__`: with `init_grid` given it must pass
`is_valid_grid` (else `ValueError`) and is copied; otherwise `fill_value`
must be 0 or 1 and a blank grid is generated. -/
def Grid.init (width height : Nat) (fill_value : Int)
    (init_grid : Option (List (List Int))) : Except PyError Grid :=
  match init_grid with
  | some ig =>
      if is_valid_grid ig width height then
        .ok ⟨width, height, fill_value, ig.map fun col => col⟩
      else
        .error .valueError
  | none =>
      if fill_value = 0 ∨ fill_value = 1 then
        .ok ⟨width, height, fill_value, generate_blank_grid width height fill_value⟩
      else
        .error .valueError

/-- In-bounds element access `grid[c][r]` for non-negative indices (the
source only indexes after its own bounds check, so the defaults are never
the value actually read). -/
def cellAt (grid : List (List Int)) (c r : Int) : Int :=
  (grid.getD c.toNat []).getD r.toNat 0

/-- Embeds `Grid.get_pixel_value`: bounds-checked read of `_grid[x][y]`,
raising `IndexError` out of bounds. -/
def Grid.get_pixel_value (g : Grid) (x y : Int) : Except PyError Int :=
  if x < 0 ∨ x ≥ (g.width : Int) ∨ y < 0 ∨ y ≥ (g.height : Int) then
    .error .indexError
  else
    .ok (cellAt g.grid x y)

/-- One cell of the grid built by `Grid.get_shifted`'s double loop: cell
`(c, r)` of the new grid is `_grid[src_c][src_r]` when the source indices
pass the bounds check, else the `fill_value` left by the blank grid the
loop writes into. -/
def shiftedCell (g : Grid) (dx dy : Int) (wrap : Bool) (c r : Nat) : Int :=
  let src_c : Int := if wrap then ((c : Int) + dx) % (g.width : Int) else (c : Int) + dx
  let src_r : Int := if wrap then ((r : Int) + dy) % (g.height : Int) else (r : Int) + dy
  if 0 ≤ src_c ∧ src_c < (g.width : Int) ∧ 0 ≤ src_r ∧ src_r < (g.height : Int) then
    cellAt g.grid src_c src_r
  else
    g.fill_value

/-- The `new` grid built by `Grid.get_shifted`'s double loop: a blank
`width × height` grid filled with `shiftedCell` at every coordinate (each
cell of the loop's target is written at most once, so the
initialize-then-assign loop is rendered pointwise). -/
def shiftedGrid (g : Grid) (dx dy : Int) (wrap : Bool) : List (List Int) :=
  (List.range g.width).map fun c =>
    (List.range g.height).map fun r => shiftedCell g dx dy wrap c r

/-- Embeds `Grid.get_shifted`: builds the shifted data and constructs the
result through `Grid.__init__` with it as `init_grid`, exactly as the
source's final line does. -/
def Grid.get_shifted (g : Grid) (dx dy : Int) (wrap : Bool) : Except PyError Grid :=
  Grid.init g.width g.height g.fill_value (some (shiftedGrid g dx dy wrap))

/-! ## Frame model
Embedded from `src/led_matrix_battery/led_matrix/display/animations/frame/base.py`. -/

/-- Class attribute `Frame.DEFAULT_DURATION`. -/
def DEFAULT_DURATION : ℚ := 0.33

/-- State of a `Frame` instance (the second `duration` property pair in the
class body is the one in effect; it stores `_duration`). -/
structure Frame where
  grid : List (List Int)
  duration : ℚ
deriving DecidableEq, Repr

/-- Embeds `Frame.__init__` with a (non-None) grid: the `grid` setter
validates against `self._width` × `self._height`, which on the base class
read `getattr(self, '__width'/'__height', None) or 0`, i.e. `0 × 0`; an
invalid grid raises `ValueError`.  Then the (second) `duration` setter
requires a positive number. -/
def Frame.init (grid : List (List Int)) (duration : ℚ) : Except PyError Frame :=
  if is_valid_grid grid 0 0 then
    if duration ≤ 0 then .error .valueError
    else .ok ⟨grid, duration⟩
  else
    .error .valueError

/-- Embeds `Frame.from_dict`: evaluating `data['duration']` on a dict
without that key raises `KeyError`, caught and retried with
`DEFAULT_DURATION`; a dict without `'grid'` re-raises the `KeyError`. -/
def Frame.from_dict (data_grid : Option (List (List Int))) (data_duration : Option ℚ) :
    Except PyError Frame :=
  match data_grid with
  | none => .error .keyError
  | some g =>
      match data_duration with
      | some d => Frame.init g d
      | none => Frame.init g DEFAULT_DURATION

/-! ## PowerMonitor attribute plumbing
Embedded from `src/led_matrix_battery/monitor/__init__.py`.  Name mangling:
inside class `PowerMonitor`, `self.__check_interval` is attribute
`_PowerMonitor__check_interval` (class default 5) and
`self.__battery_check_interval` is the distinct attribute
`_PowerMonitor__battery_check_interval`. -/

/-- The two interval attributes of a `PowerMonitor` instance. -/
structure PowerMonitorIntervals where
  check_interval : ℚ
  battery_check_interval_attr : ℚ
deriving DecidableEq, Repr

/-- Embeds the interval assignments of `PowerMonitor.__init__`:
`self.__battery_check_interval = battery_check_interval or
self.__check_interval` (Python `or`: the right operand when the argument is
falsy, i.e. 0).  `__check_interval` itself keeps the class default 5. -/
def PowerMonitor.init (battery_check_interval : ℚ) : PowerMonitorIntervals :=
  { check_interval := 5
    battery_check_interval_attr :=
      if battery_check_interval ≠ 0 then battery_check_interval else 5 }

/-- Embeds the `battery_check_interval` property getter: returns
`self.__check_interval`. -/
def PowerMonitor.battery_check_interval (m : PowerMonitorIntervals) : ℚ :=
  m.check_interval

/-- Embeds the `battery_check_interval` property setter: assigns
`self.__check_interval`. -/
def PowerMonitor.set_battery_check_interval (m : PowerMonitorIntervals) (new : ℚ) :
    PowerMonitorIntervals :=
  { m with check_interval := new }

/-- Embeds the sleep duration of one `run()` cycle:
`sleep(self.battery_check_interval)` reads the property. -/
def PowerMonitor.run_sleep_interval (m : PowerMonitorIntervals) : ℚ :=
  PowerMonitor.battery_check_interval m

/-! ## PowerMonitor polling loop
Embedded from `PowerMonitor.run` and `PowerMonitor.notify`
(`src/led_matrix_battery/monitor/__init__.py`).  A run is driven by the
finite list of `power_plugged` booleans the successive polls return;
`last_state` is `None` before the first completed check. -/

/-- Embeds `PowerMonitor.notify`: returns whether the alert sound plays.
With `last_state` still `None` the method returns before any sound; the
plugged alert plays iff `not self.last_state`, the unplugged alert iff
`self.last_state`. -/
def notify_plays (last_state : Option Bool) (plugged : Bool) : Bool :=
  match last_state with
  | none => false
  | some ls => if plugged then !ls else ls

/-- Observable state carried across cycles of `PowerMonitor.run`:
`last_state` plus how many times each alert sound has played. -/
structure MonitorTrace where
  last_state : Option Bool
  plugged_plays : Nat
  unplugged_plays : Nat
deriving DecidableEq, Repr

/-- Embeds one iteration of the `while self.running` loop in
`PowerMonitor.run`: poll result `state`, call `notify` with the previous
`last_state`, then `self.__last_state = state`.  (The pattern / animate /
percentage hardware commands play no sound and are not traced.) -/
def monitor_cycle (t : MonitorTrace) (state : Bool) : MonitorTrace :=
  if state then
    { last_state := some state
      plugged_plays := t.plugged_plays + (if notify_plays t.last_state true then 1 else 0)
      unplugged_plays := t.unplugged_plays }
  else
    { last_state := some state
      plugged_plays := t.plugged_plays
      unplugged_plays := t.unplugged_plays + (if notify_plays t.last_state false then 1 else 0) }

/-- Embeds a run of the polling loop over a finite sequence of polled
plugged states, starting from `last_state = None` and no sounds played. -/
def monitor_run (states : List Bool) : MonitorTrace :=
  states.foldl monitor_cycle ⟨none, 0, 0⟩

/-- Written from the claim, for comparison with `monitor_run`: walking the
polled sequence with the previous state at hand (`prev = None` before the
first cycle), count the cycles on which each sound is due — the plugged
sound exactly when the cycle reads plugged and the previous state was the
known state unplugged, the unplugged sound symmetrically.  Returns
(plugged plays, unplugged plays). -/
def expected_plays (prev : Option Bool) : List Bool → Nat × Nat
  | [] => (0, 0)
  | b :: rest =>
      let done := expected_plays (some b) rest
      if b then (done.1 + (if prev = some false then 1 else 0), done.2)
      else (done.1, done.2 + (if prev = some true then 1 else 0))

/-! ## Breather
Embedded from `src/is_matrix_forge/led_matrix/display/effects/breather.py`. -/

/-- Embeds one iteration of `Breather._breath_loop`'s while-body acting on
`(current, going_up)`: add or subtract `step`, clamping at the bound and
reversing direction there. -/
def breatherStep (min_brightness max_brightness step : Int) :
    Int × Bool → Int × Bool
  | (current, going_up) =>
    if going_up then
      let c := current + step
      if c ≥ max_brightness then (max_brightness, false) else (c, true)
    else
      let c := current - step
      if c ≤ min_brightness then (min_brightness, true) else (c, false)

/-- Embeds the loop state of `_breath_loop` after `n` iterations, starting
from the controller's brightness clamped into the bounds
(`max(min_brightness, min(controller.brightness, max_brightness))`) and
`going_up = True`.  The brightness written to the controller on tick `n`
(for `n ≥ 1`) is the first component of this state. -/
def breatherState (min_brightness max_brightness step ctl_brightness : Int) :
    Nat → Int × Bool
  | 0 => (max min_brightness (min ctl_brightness max_brightness), true)
  | n + 1 => breatherStep min_brightness max_brightness step
      (breatherState min_brightness max_brightness step ctl_brightness n)

/-- Brightness cell of the controller object a `Breather` mutates. -/
structure BController where
  brightness : Int
deriving DecidableEq, Repr

/-- Flags and snapshot of a `Breather` instance; `initial_brightness` is
the name-mangled `self.__initial_brightness`. -/
structure BreatherS where
  initial_brightness : Int
  breathing : Bool
deriving DecidableEq, Repr

/-- Embeds the attach-time part of `Breather.__init__`: it snapshots
`self.controller.brightness` into `__initial_brightness` (this is the only
assignment to that attribute anywhere in the class) and starts with the
loop not running. -/
def Breather.attach (ctl : BController) : BreatherS :=
  { initial_brightness := ctl.brightness, breathing := false }

/-- Embeds `Breather.start`: a no-op when already breathing, otherwise
sets `_breathing` and spawns the loop thread; `__initial_brightness` is
not touched. -/
def Breather.start (b : BreatherS) : BreatherS :=
  if b.breathing then b else { b with breathing := true }

/-- Embeds `Breather.stop` acting on whatever brightness the controller
holds when stop is called: clears `_breathing`, joins the loop thread, and
then assigns `self.controller.brightness = self.initial_brightness`. -/
def Breather.stop (b : BreatherS) (ctl : BController) : BreatherS × BController :=
  ({ b with breathing := false }, { ctl with brightness := b.initial_brightness })

/-! ## Brightness conversion and Controller.set_brightness
Embedded from `percentage_to_value`
(`src/led_matrix_battery/common/helpers.py`; `set_brightness` imports the
identically named helper from `is_matrix_forge.common.helpers`, which is
not under `src/`, so the cited in-tree copy is used) and from
`LEDMatrixController.set_brightness`
(`src/is_matrix_forge/led_matrix/controller/controller.py`). -/

/-- A Python value passed as a brightness percent: int, float, or string. -/
inductive PyVal where
  | int (n : Int)
  | float (q : ℚ)
  | str (s : String)
deriving DecidableEq, Repr

/-- Python's `round` to an integer: nearest, ties to even. -/
def pyRound (x : ℚ) : Int :=
  let f := x.floor
  let r := x - (f : ℚ)
  if r < 1 / 2 then f
  else if 1 / 2 < r then f + 1
  else if f % 2 = 0 then f else f + 1

/-- Embeds `percentage_to_value`: `TypeError` unless the percent is an int
or float, `ValueError` outside `[0, 100]`, otherwise
`int(round(percent * max_value / 100))`. -/
def percentage_to_value (percent : PyVal) (max_value : Int) : Except PyError Int :=
  match percent with
  | .str _ => .error .typeError
  | .int p =>
      if p < 0 ∨ p > 100 then .error .valueError
      else .ok (pyRound ((p : ℚ) * (max_value : ℚ) / 100))
  | .float q =>
      if q < 0 ∨ q > 100 then .error .valueError
      else .ok (pyRound (q * (max_value : ℚ) / 100))

/-- Embeds `LEDMatrixController.set_brightness` (called with
`__from_setter=False`): converts the argument through
`percentage_to_value(max_value=255, percent=brightness)` — errors raised
there propagate — then issues the hardware write (its value is always in
`[0, 255]` here, so the `ValueError`-wrapping branch is not taken) and
stores the argument unchanged in `self.__brightness`.  Returns the
hardware value sent and the stored brightness. -/
def set_brightness (brightness : PyVal) : Except PyError (Int × PyVal) := do
  let v ← percentage_to_value brightness 255
  .ok (v, brightness)

/-! ## Transport
Embedded from `src/led_matrix_battery/led_matrix/helpers/__init__.py` and
`src/led_matrix_battery/led_matrix/constants.py`. -/

/-- The names bound at module level in
`led_matrix_battery.led_matrix.helpers.__init__` (its imports and its own
definitions).  `DISCONNECTED_DEVS` — defined in `constants.py` and listed
in its `__all__` — is not among them: the helpers module never imports it. -/
def helpersModuleGlobals : List String :=
  ["serial", "NegateSwitch", "provision_path", "FWK_MAGIC", "RESPONSE_SIZE",
   "ListPortInfo", "json", "Path", "Union", "Optional", "List",
   "get_json_from_file", "load_from_file", "disconnect_dev", "send_command",
   "send_command_raw", "send_serial", "identify_devices", "running"]

/-- Embeds `disconnect_dev`: `global DISCONNECTED_DEVS` makes the lookup
resolve in the helpers module's globals; if the name is bound there the
device is appended once, otherwise the first access raises `NameError`. -/
def disconnect_dev (registry : List String) (dev : String) :
    Except PyError (List String) :=
  if helpersModuleGlobals.contains "DISCONNECTED_DEVS" then
    if registry.contains dev then .ok registry else .ok (registry ++ [dev])
  else
    .error .nameError

/-- Embeds `send_command_raw` given whether the serial open/write raises an
I/O error: on failure the `except (IOError, OSError)` handler calls
`disconnect_dev(dev.device)` and returns `None` — but an exception raised
by `disconnect_dev` itself is not an `IOError`/`OSError` and escapes.
Returns the registry after the call together with the value returned. -/
def send_command_raw (registry : List String) (dev : String) (write_raises : Bool)
    (with_response : Bool) (response : List Nat) :
    Except PyError (List String × Option (List Nat)) :=
  if write_raises then
    match disconnect_dev registry dev with
    | .error e => .error e
    | .ok registry' => .ok (registry', none)
  else
    .ok (registry, if with_response then some response else none)

/-! ## Wire codec
Embedded from `render_matrix`
(`src/is_matrix_forge/inputmodule/ledmatrix.py`) and `send_command`
(`src/led_matrix_battery/led_matrix/helpers/__init__.py`).  The grid
argument is the `9 × 34` column-major pixel array `matrix[x][y]`. -/

/-- Constant `FWK_MAGIC` from `constants.py`. -/
def FWK_MAGIC : List Nat := [0x32, 0xAC]

/-- Embeds `send_command`'s byte assembly: the bytes handed to the serial
write are `FWK_MAGIC + [command] + parameters`. -/
def send_command (command : Nat) (parameters : List Nat) : List Nat :=
  FWK_MAGIC ++ [command] ++ parameters

/-- Embeds `vals[int(i / 8)] |= 1 << (i % 8)` on the byte list. -/
def setDrawBit (vals : List Nat) (i : Nat) : List Nat :=
  vals.set (i / 8) (vals.getD (i / 8) 0 ||| (1 <<< (i % 8)))

/-- The `(x, y)` pairs visited by `render_matrix`'s nested
`for x in range(9): for y in range(34)` loops, in loop order. -/
def pixelPairs : List (Nat × Nat) :=
  (List.range 9).flatMap fun x => (List.range 34).map fun y => (x, y)

/-- The body of `render_matrix`'s nested loops for one visited pixel `p`:
`if matrix[x][y]:` (truthy means non-zero) set bit `i = x + 9 * y`. -/
def renderStep (m : Nat → Nat → Int) (vals : List Nat) (p : Nat × Nat) : List Nat :=
  if m p.1 p.2 ≠ 0 then setDrawBit vals (p.1 + 9 * p.2) else vals

/-- Embeds `render_matrix`'s payload construction: start from 39 zero
bytes and, for every visited pixel whose value is truthy, set bit
`i % 8` of byte `i / 8` where `i = x + 9 * y`. -/
def render_matrix (m : Nat → Nat → Int) : List Nat :=
  pixelPairs.foldl (renderStep m) (List.replicate 39 0)

/-- Bit `i` of the flattened payload: bit `i % 8` of byte `i / 8`. -/
def bitOf (vals : List Nat) (i : Nat) : Bool :=
  (vals.getD (i / 8) 0).testBit (i % 8)

/-- Modelled from the spec: re-decoding the 39-byte bitmap with the same
`i = x + width * y` formula (no decoder ships under `src/`; this is the
claim's own formula): pixel `(x, y)` is 1 iff bit `x + 9 * y` is set. -/
def decode_matrix (vals : List Nat) (x y : Nat) : Int :=
  if bitOf vals (x + 9 * y) then 1 else 0

/-- A concrete all-ones grid used to instantiate hypotheses. -/
def exampleM : Nat → Nat → Int := fun _ _ => 1

/-- A concrete valid 2 × 2 grid used to instantiate hypotheses. -/
def exampleGrid : Grid :=
  ⟨2, 2, 0, [[1, 0], [0, 1]]⟩

/-! ## Theorems -/

/-- C3, counterexample: for the grid constructed as
`Grid(width=2, height=2, fill_value=0, init_grid=[[1,0],[0,1]])`, the
claimed conjunction fails — `get_shifted(1, 0, wrap=False)` does not
produce `[[0,0],[1,1]]` (the code's pull-style loop
`new[c][r] = grid[c+dx][r+dy]` yields `[[0,1],[0,0]]`). -/
theorem C3_counterexample :
    ¬ (exampleGrid.get_pixel_value 0 0 = .ok 1 ∧
       exampleGrid.get_pixel_value 1 1 = .ok 1 ∧
       (exampleGrid.get_shifted 1 0 false).map Grid.grid = .ok [[0, 0], [1, 1]]) := by
  rintro ⟨-, -, h⟩
  rw [show (exampleGrid.get_shifted 1 0 false).map Grid.grid = .ok [[0, 1], [0, 0]]
      from rfl] at h
  injection h with h'
  exact absurd h' (by decide)

/-- C3, amended: constructing `Grid(2, 2, 0, [[1,0],[0,1]])` succeeds;
`get_pixel(0,0)` and `get_pixel(1,1)` both return 1; and
`shifted(dx=1, dy=0, wrap=False).grid` equals `[[0,1],[0,0]]` — cell
`(c,r)` of the shifted grid is taken from `(c+dx, r+dy)` of the original,
so a positive `dx` moves the content toward lower column indices, and
column 1 is filled with the fill value. -/
theorem C3_concrete_scenario :
    Grid.init 2 2 0 (some [[1, 0], [0, 1]]) = .ok exampleGrid ∧
    exampleGrid.get_pixel_value 0 0 = .ok 1 ∧
    exampleGrid.get_pixel_value 1 1 = .ok 1 ∧
    (exampleGrid.get_shifted 1 0 false).map Grid.grid = .ok [[0, 1], [0, 0]] :=
  ⟨rfl, rfl, rfl, rfl⟩

/-- C9, counterexample: `Frame.from_dict` on a dict holding the
well-formed 1 × 1 grid `[[0]]` and no duration key does not succeed — the
base `Frame`'s grid setter validates against `_width = _height = 0` and
raises `ValueError` for every non-empty grid. -/
theorem C9_counterexample :
    ¬ ∃ f : Frame, Frame.from_dict (some [[0]]) none = .ok f := by
  rintro ⟨f, hf⟩
  rw [show Frame.from_dict (some [[0]]) none = .error .valueError from rfl] at hf
  exact Except.noConfusion hf

/-- C9, amended: `Frame.from_dict` with no duration key does apply the
default duration 0.33 seconds, but the base class validates the grid
against its own `_width = _height = 0`, so construction succeeds only for
the empty grid `[]` and raises `ValueError` for every non-empty grid. -/
theorem C9_from_dict_default_duration :
    ∀ g : List (List Int),
      Frame.from_dict (some g) none =
        if g = [] then .ok ⟨[], DEFAULT_DURATION⟩ else .error .valueError := by
  intro g
  cases g with
  | nil => norm_num [Frame.from_dict, Frame.init, is_valid_grid, DEFAULT_DURATION]
  | cons c t => simp [Frame.from_dict, Frame.init, is_valid_grid]

/-- C10: whatever `battery_check_interval` argument the `PowerMonitor`
constructor receives, the `battery_check_interval` property — and with it
the sleep issued by each `run()` cycle — reads the separately named
`__check_interval` attribute and therefore stays at the class default 5
until the property setter is called; the constructor's argument lands in
`__battery_check_interval`, which neither the property nor the run loop
reads. -/
theorem C10_check_interval_default :
    ∀ arg : ℚ,
      PowerMonitor.battery_check_interval (PowerMonitor.init arg) = 5 ∧
      PowerMonitor.run_sleep_interval (PowerMonitor.init arg) = 5 ∧
      (∀ x : ℚ, PowerMonitor.battery_check_interval
          (PowerMonitor.set_battery_check_interval (PowerMonitor.init arg) x) = x) ∧
      (∀ (m : PowerMonitorIntervals) (v : ℚ),
        PowerMonitor.battery_check_interval { m with battery_check_interval_attr := v } =
          PowerMonitor.battery_check_interval m) :=
  fun _ => ⟨rfl, rfl, fun _ => rfl, fun _ _ => rfl⟩

/-- C2: evaluating the code at the failing input.  When the serial
open/write inside `send_command_raw` raises an I/O error, the
`except` handler calls `disconnect_dev`, whose
`global DISCONNECTED_DEVS` lookup fails — the helpers module never
imports that name — so the send raises `NameError` instead of appending
the device and returning `None`, for every device and registry state. -/
theorem C2_send_failure_raises_nameError :
    ∀ (registry : List String) (dev : String) (with_response : Bool)
      (response : List Nat),
      send_command_raw registry dev true with_response response =
        .error .nameError :=
  fun _ _ _ _ => rfl

/-- Helper: the executable `Rat.floor` agrees with the floor of the
ordered field ℚ. -/
theorem ratFloor_eq_intFloor (a : ℚ) : a.floor = ⌊a⌋ := by
  rw [Rat.floor_def', ← Rat.floor_def]

/-- Helper: `pyRound` returns the floor when the fractional part is below
one half. -/
theorem pyRound_eq_floor_of_lt_half (x : ℚ) (n : Int)
    (h1 : (n : ℚ) ≤ x) (h2 : x < (n : ℚ) + 1 / 2) : pyRound x = n := by
  have hf : x.floor = n := by
    rw [ratFloor_eq_intFloor]
    exact Int.floor_eq_iff.mpr ⟨h1, by linarith⟩
  simp only [pyRound, hf]
  rw [if_pos (by linarith)]

/-- Helper: `pyRound` rounds up when the fractional part is above one
half. -/
theorem pyRound_eq_ceil_of_half_lt (x : ℚ) (n : Int)
    (h1 : (n : ℚ) + 1 / 2 < x) (h2 : x < (n : ℚ) + 1) : pyRound x = n + 1 := by
  have hf : x.floor = n := by
    rw [ratFloor_eq_intFloor]
    exact Int.floor_eq_iff.mpr ⟨by linarith, h2⟩
  simp only [pyRound, hf]
  rw [if_neg (by linarith), if_pos (by linarith)]

/-- Helper: on an exact half, `pyRound` goes to the even neighbour. -/
theorem pyRound_eq_of_eq_half (x : ℚ) (n : Int) (h : x = (n : ℚ) + 1 / 2) :
    pyRound x = if n % 2 = 0 then n else n + 1 := by
  have hf : x.floor = n := by
    rw [ratFloor_eq_intFloor]
    exact Int.floor_eq_iff.mpr ⟨by rw [h]; linarith, by rw [h]; linarith⟩
  simp only [pyRound, hf]
  rw [if_neg (by rw [h]; linarith), if_neg (by rw [h]; linarith)]

/-- C6, counterexample: `set_brightness("75%")` does not succeed — the
argument goes straight to `percentage_to_value`, which raises `TypeError`
for a string (only the constructor's `default_brightness` path normalizes
"NN%" strings, via `__normalize_percent`). -/
theorem C6_counterexample :
    ¬ ∃ r, set_brightness (PyVal.str "75%") = .ok r := by
  rintro ⟨r, hr⟩
  rw [show set_brightness (PyVal.str "75%") = .error .typeError from rfl] at hr
  exact Except.noConfusion hr

/-- C6, amended: `set_brightness` validates `0 ≤ percent ≤ 100` for int
(and float) inputs and converts via `round(percent * 255 / 100)` (ties to
even): 101 and −1 fail with a validation error, 75 succeeds with hardware
value 191 and stores 75; a string such as "75%" is rejected with a
`TypeError` rather than normalized. -/
theorem C6_set_brightness_validation :
    set_brightness (.int 101) = .error .valueError ∧
    set_brightness (.int (-1)) = .error .valueError ∧
    set_brightness (.int 75) = .ok (191, .int 75) ∧
    set_brightness (.str "75%") = .error .typeError ∧
    (∀ p : Int, 0 ≤ p → p ≤ 100 →
      set_brightness (.int p) = .ok (pyRound ((p : ℚ) * 255 / 100), .int p)) ∧
    (∀ p : Int, p < 0 ∨ 100 < p → set_brightness (.int p) = .error .valueError) := by
  have h75 : percentage_to_value (.int 75) 255 = .ok 191 := by
    simp only [percentage_to_value]
    rw [if_neg (by norm_num),
      pyRound_eq_floor_of_lt_half _ 191 (by norm_num) (by norm_num)]
  refine ⟨rfl, rfl, ?_, rfl, ?_, ?_⟩
  · simp only [set_brightness]
    rw [h75]
    rfl
  · intro p h0 h100
    simp only [set_brightness, percentage_to_value]
    rw [if_neg (by omega)]
    rfl
  · intro p h
    simp only [set_brightness, percentage_to_value]
    rw [if_pos (by omega)]
    rfl

/-- C6, witness for the amended theorem's quantified parts, at percent 50
(hardware value `round(127.5) = 128`, ties to even). -/
theorem C6_set_brightness_validation_witness :
    set_brightness (.int 50) = .ok (pyRound (((50 : Int) : ℚ) * 255 / 100), .int 50) ∧
    set_brightness (.int 128) = .error .valueError ∧
    pyRound (((50 : Int) : ℚ) * 255 / 100) = 128 :=
  ⟨C6_set_brightness_validation.2.2.2.2.1 50 (by decide) (by decide),
   C6_set_brightness_validation.2.2.2.2.2 128 (Or.inr (by decide)),
   by rw [pyRound_eq_of_eq_half _ 127 (by norm_num)]; norm_num⟩

/-- C7, counterexample: attach a `Breather` while the controller is at
brightness 50; later (before `start()`) the brightness becomes 70, so the
snapshot a start-time attach would record is 70 — yet `stop()` restores
50, the value `__initial_brightness` captured once, in `__init__`.
(The controller is at 30 when `stop` runs, standing for an arbitrary
mid-cycle value.) -/
theorem C7_counterexample :
    (Breather.stop (Breather.start (Breather.attach ⟨50⟩)) ⟨30⟩).2.brightness = 50 ∧
    (50 : Int) ≠ 70 :=
  ⟨rfl, by decide⟩

/-- C7, amended: `stop()` clears the breathing flag and unconditionally
restores the controller's brightness to the snapshot recorded at
construction (attach) time — `__initial_brightness` is assigned only in
`__init__`, and `start()` does not refresh it — whatever brightness the
loop last wrote and whether or not `start()` ever ran. -/
theorem C7_stop_restores_attach_snapshot :
    ∀ (ctl0 ctl_now : BController),
      (Breather.stop (Breather.start (Breather.attach ctl0)) ctl_now).2.brightness =
        ctl0.brightness ∧
      (Breather.stop (Breather.start (Breather.attach ctl0)) ctl_now).1.breathing = false ∧
      (Breather.stop (Breather.attach ctl0) ctl_now).2.brightness = ctl0.brightness :=
  fun _ _ => ⟨rfl, rfl, rfl⟩

/-- Helper: `notify_plays` for the plugged sound is exactly "previous
state known and unplugged". -/
theorem notify_plays_plugged (ls : Option Bool) :
    notify_plays ls true = decide (ls = some false) := by
  cases ls with
  | none => rfl
  | some b => cases b <;> rfl

/-- Helper: `notify_plays` for the unplugged sound is exactly "previous
state known and plugged". -/
theorem notify_plays_unplugged (ls : Option Bool) :
    notify_plays ls false = decide (ls = some true) := by
  cases ls with
  | none => rfl
  | some b => cases b <;> rfl

/-- Helper: running the fold from an arbitrary trace adds exactly the
claimed transition counts, with `expected_plays` walked from the trace's
`last_state`. -/
theorem monitor_foldl_plays (states : List Bool) :
    ∀ t : MonitorTrace,
      (states.foldl monitor_cycle t).plugged_plays =
        t.plugged_plays + (expected_plays t.last_state states).1 ∧
      (states.foldl monitor_cycle t).unplugged_plays =
        t.unplugged_plays + (expected_plays t.last_state states).2 := by
  induction states with
  | nil => intro t; exact ⟨rfl, rfl⟩
  | cons b rest ih =>
      intro t
      have hstep : monitor_cycle t b =
          { last_state := some b
            plugged_plays :=
              t.plugged_plays + (if b then (if notify_plays t.last_state true then 1 else 0) else 0)
            unplugged_plays :=
              t.unplugged_plays +
                (if b then 0 else (if notify_plays t.last_state false then 1 else 0)) } := by
        cases b <;> simp [monitor_cycle]
      obtain ⟨ih1, ih2⟩ := ih (monitor_cycle t b)
      refine ⟨?_, ?_⟩
      · rw [List.foldl_cons, ih1, hstep]
        simp only [expected_plays, notify_plays_plugged, notify_plays_unplugged]
        cases b <;> first | (simp; omega) | simp
      · rw [List.foldl_cons, ih2, hstep]
        simp only [expected_plays, notify_plays_plugged, notify_plays_unplugged]
        cases b <;> first | (simp; omega) | simp

/-- C4, counterexample: for the polled battery sequence `[plugged]` the
previous state on the only cycle is UNKNOWN, so by the claim the
plugged-in sound should fire exactly once — but `PowerMonitor.notify`
returns before playing anything whenever `last_state is None`, and no
sound plays at all. -/
theorem C4_counterexample :
    (monitor_run [true]).plugged_plays = 0 ∧ (monitor_run [true]).plugged_plays ≠ 1 :=
  ⟨rfl, by decide⟩

/-- C4, amended: in every run the plugged sound plays exactly on cycles
whose reading is plugged and whose previous state is the *known* state
unplugged — a cycle whose previous state is UNKNOWN (the first poll) plays
nothing, unlike the claim's "previous state UNPLUGGED or UNKNOWN" — and
symmetrically for the unplugged sound; on the concrete sequence
`[unplugged, unplugged, plugged, unplugged]` each sound fires exactly
once (2nd→3rd and 3rd→4th readings), never on the repeated unplugged
reading. -/
theorem C4_notify_on_known_transitions :
    (∀ states : List Bool,
      (monitor_run states).plugged_plays = (expected_plays none states).1 ∧
      (monitor_run states).unplugged_plays = (expected_plays none states).2) ∧
    (monitor_run [false, false, true, false]).plugged_plays = 1 ∧
    (monitor_run [false, false, true, false]).unplugged_plays = 1 ∧
    (monitor_run [false, false]).plugged_plays = 0 ∧
    (monitor_run [false, false]).unplugged_plays = 0 := by
  refine ⟨fun states => ?_, rfl, rfl, rfl, rfl⟩
  have h := monitor_foldl_plays states ⟨none, 0, 0⟩
  simpa [monitor_run] using h

/-- C5: with valid settings (`min ≤ max`, `0 < step ≤ 100`) the breathing
loop's brightness — started from the controller's brightness clamped into
the bounds and ping-ponging with hard clamps thereafter — stays within
`[min_brightness, max_brightness]` at every tick. -/
theorem C5_breather_invariant (minB maxB step b : Int)
    (hle : minB ≤ maxB) (hstep : 0 < step) (hstep100 : step ≤ 100) :
    ∀ n : Nat,
      minB ≤ (breatherState minB maxB step b n).1 ∧
      (breatherState minB maxB step b n).1 ≤ maxB := by
  intro n
  induction n with
  | zero =>
      constructor
      · exact le_max_left _ _
      · exact max_le hle (min_le_right _ _)
  | succ k ih =>
      obtain ⟨ih1, ih2⟩ := ih
      simp only [breatherState]
      rcases hk : breatherState minB maxB step b k with ⟨cur, dir⟩
      rw [hk] at ih1 ih2
      simp only at ih1 ih2
      simp only [breatherStep]
      cases dir <;> simp only [Bool.false_eq_true, reduceIte] <;>
        split <;> constructor <;> simp only at * <;> omega

/-- C5, witness: bounds 5/90, step 5, fps arbitrary, controller brightness
50; after three ticks the written brightness 65 is within the bounds. -/
theorem C5_breather_invariant_witness :
    5 ≤ (breatherState 5 90 5 50 3).1 ∧ (breatherState 5 90 5 50 3).1 ≤ 90 :=
  C5_breather_invariant 5 90 5 50 (by decide) (by decide) (by decide) 3

/-- Helper: reading back the position just set. -/
theorem getD_set_self (l : List Nat) (n a : Nat) (h : n < l.length) :
    (l.set n a).getD n 0 = a := by
  induction l generalizing n with
  | nil => exact absurd h (by simp)
  | cons b t ih =>
      cases n with
      | zero => rfl
      | succ n => exact ih n (by simpa using h)

/-- Helper: `set` leaves every other position unchanged. -/
theorem getD_set_ne (l : List Nat) (n k a : Nat) (h : n ≠ k) :
    (l.set n a).getD k 0 = l.getD k 0 := by
  induction l generalizing n k with
  | nil => rfl
  | cons b t ih =>
      cases n with
      | zero =>
          cases k with
          | zero => exact absurd rfl h
          | succ k => rfl
      | succ n =>
          cases k with
          | zero => rfl
          | succ k => exact ih n k (fun he => h (by rw [he]))

/-- Helper: `setDrawBit` keeps the byte count. -/
theorem length_setDrawBit (vals : List Nat) (i : Nat) :
    (setDrawBit vals i).length = vals.length :=
  List.length_set ..

/-- Helper: the bits of a zeroed byte buffer are all clear. -/
theorem getD_replicate_zero (n k : Nat) : (List.replicate n (0 : Nat)).getD k 0 = 0 := by
  induction n generalizing k with
  | zero => rfl
  | succ n ih =>
      cases k with
      | zero => rfl
      | succ k => exact ih k

/-- Helper: `setDrawBit vals j` sets exactly flat bit `j` and preserves
every other flat bit. -/
theorem bitOf_setDrawBit (vals : List Nat) (j i : Nat) (h : j / 8 < vals.length) :
    (bitOf (setDrawBit vals j) i = true ↔ bitOf vals i = true ∨ i = j) := by
  unfold bitOf setDrawBit
  by_cases hb : i / 8 = j / 8
  · rw [hb, getD_set_self _ _ _ h, Nat.testBit_or, Nat.shiftLeft_eq, one_mul]
    have hmod : i % 8 < 8 := Nat.mod_lt _ (by norm_num)
    constructor
    · intro hor
      rcases Bool.or_eq_true_iff.mp hor with hbit | hpow
      · left
        exact hbit
      · right
        by_cases hm : j % 8 = i % 8
        · omega
        · exact absurd hpow (by rw [Nat.testBit_two_pow_of_ne hm]; simp)
    · rintro (hbit | rfl)
      · rw [hbit]
        simp
      · rw [Nat.testBit_two_pow_self]
        simp
  · rw [getD_set_ne _ _ _ _ (fun he => hb he.symm)]
    constructor
    · exact fun hbit => Or.inl hbit
    · rintro (hbit | rfl)
      · exact hbit
      · exact absurd rfl hb

/-- Helper: the render fold keeps the byte count. -/
theorem length_render_foldl (m : Nat → Nat → Int) (L : List (Nat × Nat)) :
    ∀ vals : List Nat, (L.foldl (renderStep m) vals).length = vals.length := by
  induction L with
  | nil => intro vals; rfl
  | cons q rest ih =>
      intro vals
      rw [List.foldl_cons, ih]
      unfold renderStep
      split
      · exact length_setDrawBit ..
      · rfl

/-- Helper: a flat bit of the render fold is set exactly when it was set
before or some visited truthy pixel maps to it. -/
theorem bitOf_render_foldl (m : Nat → Nat → Int) (i : Nat) (L : List (Nat × Nat)) :
    ∀ vals : List Nat, (∀ p ∈ L, (p.1 + 9 * p.2) / 8 < vals.length) →
      (bitOf (L.foldl (renderStep m) vals) i = true ↔
        bitOf vals i = true ∨ ∃ p ∈ L, m p.1 p.2 ≠ 0 ∧ p.1 + 9 * p.2 = i) := by
  induction L with
  | nil =>
      intro vals _
      simp
  | cons q rest ih =>
      intro vals hlen
      rw [List.foldl_cons]
      have hq : (q.1 + 9 * q.2) / 8 < vals.length := hlen q (List.mem_cons_self _ _)
      by_cases hmq : m q.1 q.2 ≠ 0
      · have hstep : renderStep m vals q = setDrawBit vals (q.1 + 9 * q.2) := by
          simp [renderStep, hmq]
        have hlen' : ∀ p ∈ rest, (p.1 + 9 * p.2) / 8 < (setDrawBit vals (q.1 + 9 * q.2)).length := by
          intro p hp
          rw [length_setDrawBit]
          exact hlen p (List.mem_cons_of_mem _ hp)
        rw [hstep, ih _ hlen', bitOf_setDrawBit _ _ _ hq]
        constructor
        · rintro ((hb | rfl) | ⟨p, hp, hmp, hip⟩)
          · exact Or.inl hb
          · exact Or.inr ⟨q, List.mem_cons_self _ _, hmq, rfl⟩
          · exact Or.inr ⟨p, List.mem_cons_of_mem _ hp, hmp, hip⟩
        · rintro (hb | ⟨p, hp, hmp, hip⟩)
          · exact Or.inl (Or.inl hb)
          · rcases List.mem_cons.mp hp with rfl | hp'
            · exact Or.inl (Or.inr hip.symm)
            · exact Or.inr ⟨p, hp', hmp, hip⟩
      · have hstep : renderStep m vals q = vals := by
          unfold renderStep
          rw [if_neg hmq]
        rw [hstep, ih _ (fun p hp => hlen p (List.mem_cons_of_mem _ hp))]
        constructor
        · rintro (hb | ⟨p, hp, hmp, hip⟩)
          · exact Or.inl hb
          · exact Or.inr ⟨p, List.mem_cons_of_mem _ hp, hmp, hip⟩
        · rintro (hb | ⟨p, hp, hmp, hip⟩)
          · exact Or.inl hb
          · rcases List.mem_cons.mp hp with rfl | hp'
            · exact absurd hmp hmq
            · exact Or.inr ⟨p, hp', hmp, hip⟩

/-- Helper: the pixels visited by the nested loops are exactly the valid
coordinates. -/
theorem mem_pixelPairs (p : Nat × Nat) : p ∈ pixelPairs ↔ p.1 < 9 ∧ p.2 < 34 := by
  cases p with
  | mk x y => simp [pixelPairs]

/-- Helper: the characterization of an arbitrary payload bit of
`render_matrix`: bit `x + 9 * y` (byte `i / 8`, position `i % 8`) is set
exactly when cell `(x, y)` is non-zero. -/
theorem bitOf_render_matrix (m : Nat → Nat → Int) (x y : Nat)
    (hx : x < 9) (hy : y < 34) :
    (bitOf (render_matrix m) (x + 9 * y) = true ↔ m x y ≠ 0) := by
  unfold render_matrix
  have hlen : ∀ p ∈ pixelPairs, (p.1 + 9 * p.2) / 8 < (List.replicate 39 (0 : Nat)).length := by
    intro p hp
    obtain ⟨h1, h2⟩ := (mem_pixelPairs p).mp hp
    rw [List.length_replicate]
    omega
  rw [bitOf_render_foldl m _ _ _ hlen]
  have hzero : bitOf (List.replicate 39 (0 : Nat)) (x + 9 * y) = false := by
    unfold bitOf
    rw [getD_replicate_zero]
    exact Nat.zero_testBit _
  rw [hzero]
  simp only [Bool.false_eq_true, false_or]
  constructor
  · rintro ⟨p, hp, hmp, hip⟩
    obtain ⟨h1, h2⟩ := (mem_pixelPairs p).mp hp
    have hpx : p.1 = x ∧ p.2 = y := by omega
    rw [← hpx.1, ← hpx.2]
    exact hmp
  · intro hm
    exact ⟨(x, y), (mem_pixelPairs (x, y)).mpr ⟨hx, hy⟩, hm, rfl⟩

/-- C1: for every 9 × 34 grid of 0/1 cells, `render_matrix` produces
exactly 39 payload bytes in which bit `i = x + 9 * y` (byte `i / 8`, bit
position `i % 8`) is set exactly when cell `(x, y)` is non-zero; the
transmitted command prefixes the payload with the 2-byte `FWK_MAGIC` and
the 1-byte `Draw` opcode; and re-decoding the bitmap with the same
`i = x + width * y` formula reconstructs the grid exactly, boundary cells
included. -/
theorem C1_full_frame_encode (m : Nat → Nat → Int)
    (hm : ∀ x y, m x y = 0 ∨ m x y = 1) :
    (render_matrix m).length = 39 ∧
    (∀ draw_opcode : Nat,
      send_command draw_opcode (render_matrix m) =
        FWK_MAGIC ++ [draw_opcode] ++ render_matrix m) ∧
    (∀ x y : Nat, x < 9 → y < 34 →
      (bitOf (render_matrix m) (x + 9 * y) = true ↔ m x y ≠ 0)) ∧
    (∀ x y : Nat, x < 9 → y < 34 →
      decode_matrix (render_matrix m) x y = m x y) := by
  refine ⟨?_, fun _ => rfl, fun x y hx hy => bitOf_render_matrix m x y hx hy, ?_⟩
  · unfold render_matrix
    rw [length_render_foldl, List.length_replicate]
  · intro x y hx hy
    unfold decode_matrix
    rcases hm x y with h0 | h1
    · rw [if_neg, h0]
      intro hbit
      exact (bitOf_render_matrix m x y hx hy).mp hbit h0
    · rw [if_pos, h1]
      exact (bitOf_render_matrix m x y hx hy).mpr (by rw [h1]; norm_num)

/-- C1, witness at the all-ones grid: the encoder hypotheses hold and the
corner cells (0,0) and (8,33) both decode back to 1. -/
theorem C1_full_frame_encode_witness :
    (render_matrix exampleM).length = 39 ∧
    decode_matrix (render_matrix exampleM) 0 0 = exampleM 0 0 ∧
    decode_matrix (render_matrix exampleM) 8 33 = exampleM 8 33 :=
  ⟨(C1_full_frame_encode exampleM (fun _ _ => Or.inr rfl)).1,
   (C1_full_frame_encode exampleM (fun _ _ => Or.inr rfl)).2.2.2 0 0 (by decide) (by decide),
   (C1_full_frame_encode exampleM (fun _ _ => Or.inr rfl)).2.2.2 8 33 (by decide) (by decide)⟩

/-- Helper: unfolding the grid well-formedness check. -/
theorem is_valid_grid_iff (grid : List (List Int)) (w h : Nat) :
    is_valid_grid grid w h = true ↔
      grid.length = w ∧ ∀ col ∈ grid, col.length = h ∧
        ∀ cel ∈ col, cel = 0 ∨ cel = 1 := by
  simp [is_valid_grid, List.all_eq_true, forall_and]

/-- Helper: any in-bounds cell of a valid grid is 0 or 1. -/
theorem valid_cellAt (grid : List (List Int)) (w h : Nat)
    (hv : is_valid_grid grid w h = true) (c r : Int)
    (hc0 : 0 ≤ c) (hcw : c < (w : Int)) (hr0 : 0 ≤ r) (hrh : r < (h : Int)) :
    cellAt grid c r = 0 ∨ cellAt grid c r = 1 := by
  obtain ⟨hlen, hcols⟩ := (is_valid_grid_iff grid w h).mp hv
  unfold cellAt
  have hcl : c.toNat < grid.length := by omega
  rw [List.getD_eq_getElem grid [] hcl]
  obtain ⟨hcollen, hcells⟩ := hcols _ (List.getElem_mem hcl)
  have hrl : r.toNat < (grid[c.toNat]).length := by omega
  rw [List.getD_eq_getElem _ 0 hrl]
  exact hcells _ (List.getElem_mem hrl)

/-- Helper: with `wrap=True` and indices inside the grid the bounds check
always passes, and the cell comes from the wrapped source coordinates. -/
theorem shiftedCell_wrap (g : Grid) (dx dy : Int) (c r : Nat)
    (hc : c < g.width) (hr : r < g.height) :
    shiftedCell g dx dy true c r =
      cellAt g.grid (((c : Int) + dx) % (g.width : Int))
        (((r : Int) + dy) % (g.height : Int)) := by
  have hw : (0 : Int) < (g.width : Int) := by omega
  have hh : (0 : Int) < (g.height : Int) := by omega
  unfold shiftedCell
  simp only [if_true]
  rw [if_pos ⟨Int.emod_nonneg _ (ne_of_gt hw), Int.emod_lt_of_pos _ hw,
    Int.emod_nonneg _ (ne_of_gt hh), Int.emod_lt_of_pos _ hh⟩]

/-- Helper: the shifted data of a valid grid is itself a valid
`width × height` grid, so the constructor call inside `get_shifted`
succeeds. -/
theorem shiftedGrid_valid (g : Grid)
    (hv : is_valid_grid g.grid g.width g.height = true) (dx dy : Int) :
    is_valid_grid (shiftedGrid g dx dy true) g.width g.height = true := by
  rw [is_valid_grid_iff]
  refine ⟨by simp [shiftedGrid], ?_⟩
  intro col hcol
  obtain ⟨c, hc, rfl⟩ := List.mem_map.mp hcol
  have hcw : c < g.width := List.mem_range.mp hc
  refine ⟨by simp, ?_⟩
  intro cel hcel
  obtain ⟨r, hr, rfl⟩ := List.mem_map.mp hcel
  have hrh : r < g.height := List.mem_range.mp hr
  have hw : (0 : Int) < (g.width : Int) := by omega
  have hh : (0 : Int) < (g.height : Int) := by omega
  rw [shiftedCell_wrap g dx dy c r hcw hrh]
  exact valid_cellAt g.grid g.width g.height hv _ _
    (Int.emod_nonneg _ (ne_of_gt hw)) (Int.emod_lt_of_pos _ hw)
    (Int.emod_nonneg _ (ne_of_gt hh)) (Int.emod_lt_of_pos _ hh)

/-- Helper: on a valid grid, `get_shifted` with `wrap=True` returns (the
constructor re-validation passes) the grid of shifted data with the same
dimensions and fill value. -/
theorem get_shifted_wrap_eq (g : Grid)
    (hv : is_valid_grid g.grid g.width g.height = true) (dx dy : Int) :
    g.get_shifted dx dy true =
      .ok ⟨g.width, g.height, g.fill_value, shiftedGrid g dx dy true⟩ := by
  have hvs := shiftedGrid_valid g hv dx dy
  simp only [Grid.get_shifted, Grid.init, hvs, if_true, List.map_id']

/-- Helper: reading the built shifted data at in-bounds integer
coordinates evaluates `shiftedCell` there. -/
theorem cellAt_shiftedGrid (g : Grid) (dx dy : Int) (wrap : Bool) (a b : Int)
    (ha0 : 0 ≤ a) (haw : a < (g.width : Int)) (hb0 : 0 ≤ b) (hbh : b < (g.height : Int)) :
    cellAt (shiftedGrid g dx dy wrap) a b = shiftedCell g dx dy wrap a.toNat b.toNat := by
  unfold cellAt shiftedGrid
  have hal : a.toNat < ((List.range g.width).map fun c =>
      (List.range g.height).map fun r => shiftedCell g dx dy wrap c r).length := by
    simp
    omega
  rw [List.getD_eq_getElem _ [] hal, List.getElem_map, List.getElem_range]
  have hbl : b.toNat < ((List.range g.height).map fun r =>
      shiftedCell g dx dy wrap a.toNat r).length := by
    simp
    omega
  rw [List.getD_eq_getElem _ 0 hbl, List.getElem_map, List.getElem_range]

/-- Helper: pushing an addend inside `Int.emod`. -/
theorem emod_add_cancel (x y n : Int) : (x % n + y) % n = (x + y) % n := by
  rw [Int.add_emod, Int.emod_emod_of_dvd _ dvd_rfl, ← Int.add_emod]

/-- C8: for every well-formed Grid `g` and all integers `dx`, `dy`,
`g.shifted(dx, dy, wrap=True)` succeeds, and shifting the result by
`(-dx, -dy)` with `wrap=True` gives back a Grid equal to `g`
cell-for-cell — the embedding is functional, so neither call can modify
the original grid, whose data reappears unchanged in the result. -/
theorem C8_shift_wrap_roundtrip (g : Grid)
    (hv : is_valid_grid g.grid g.width g.height = true) (dx dy : Int) :
    ∃ g1 : Grid, g.get_shifted dx dy true = .ok g1 ∧
      g1.get_shifted (-dx) (-dy) true = .ok g := by
  obtain ⟨w, h, f, grid⟩ := g
  simp only at hv ⊢
  refine ⟨⟨w, h, f, shiftedGrid ⟨w, h, f, grid⟩ dx dy true⟩,
    get_shifted_wrap_eq ⟨w, h, f, grid⟩ hv dx dy, ?_⟩
  have hv1 : is_valid_grid (shiftedGrid ⟨w, h, f, grid⟩ dx dy true) w h = true :=
    shiftedGrid_valid ⟨w, h, f, grid⟩ hv dx dy
  rw [get_shifted_wrap_eq ⟨w, h, f, shiftedGrid ⟨w, h, f, grid⟩ dx dy true⟩ hv1 (-dx) (-dy)]
  obtain ⟨hlen, hcols⟩ := (is_valid_grid_iff grid w h).mp hv
  have hgrideq :
      shiftedGrid ⟨w, h, f, shiftedGrid ⟨w, h, f, grid⟩ dx dy true⟩ (-dx) (-dy) true = grid := by
    apply List.ext_getElem
    · simp [shiftedGrid, hlen]
    · intro c hc1 hc2
      have hcw : c < w := by simpa [shiftedGrid] using hc1
      have hw : (0 : Int) < (w : Int) := by omega
      rw [show (shiftedGrid ⟨w, h, f, shiftedGrid ⟨w, h, f, grid⟩ dx dy true⟩ (-dx) (-dy) true)[c] =
          (List.range h).map (fun r =>
            shiftedCell ⟨w, h, f, shiftedGrid ⟨w, h, f, grid⟩ dx dy true⟩ (-dx) (-dy) true c r)
          from by
        unfold shiftedGrid
        rw [List.getElem_map, List.getElem_range]]
      obtain ⟨hcollen, hcells⟩ := hcols _ (List.getElem_mem hc2)
      apply List.ext_getElem
      · simp [hcollen]
      · intro r hr1 hr2
        have hrh : r < h := by simpa using hr1
        have hh : (0 : Int) < (h : Int) := by omega
        rw [List.getElem_map, List.getElem_range]
        rw [shiftedCell_wrap ⟨w, h, f, shiftedGrid ⟨w, h, f, grid⟩ dx dy true⟩ (-dx) (-dy) c r
          hcw hrh]
        simp only
        rw [cellAt_shiftedGrid ⟨w, h, f, grid⟩ dx dy true _ _
          (Int.emod_nonneg _ (ne_of_gt hw)) (Int.emod_lt_of_pos _ hw)
          (Int.emod_nonneg _ (ne_of_gt hh)) (Int.emod_lt_of_pos _ hh)]
        have htc : (((c : Int) + -dx) % (w : Int)).toNat < w := by
          have h1 := Int.emod_lt_of_pos ((c : Int) + -dx) hw
          have h2 := Int.emod_nonneg ((c : Int) + -dx) (ne_of_gt hw)
          omega
        have htr : (((r : Int) + -dy) % (h : Int)).toNat < h := by
          have h1 := Int.emod_lt_of_pos ((r : Int) + -dy) hh
          have h2 := Int.emod_nonneg ((r : Int) + -dy) (ne_of_gt hh)
          omega
        rw [shiftedCell_wrap ⟨w, h, f, grid⟩ dx dy _ _ htc htr]
        simp only
        rw [Int.toNat_of_nonneg (Int.emod_nonneg _ (ne_of_gt hw)),
          Int.toNat_of_nonneg (Int.emod_nonneg _ (ne_of_gt hh))]
        rw [emod_add_cancel, emod_add_cancel]
        have hc' : ((c : Int) + -dx + dx) % (w : Int) = (c : Int) := by
          rw [show (c : Int) + -dx + dx = (c : Int) by ring]
          exact Int.emod_eq_of_lt (by exact_mod_cast Nat.zero_le c) (by exact_mod_cast hcw)
        have hr' : ((r : Int) + -dy + dy) % (h : Int) = (r : Int) := by
          rw [show (r : Int) + -dy + dy = (r : Int) by ring]
          exact Int.emod_eq_of_lt (by exact_mod_cast Nat.zero_le r) (by exact_mod_cast hrh)
        rw [hc', hr']
        unfold cellAt
        rw [Int.toNat_natCast, Int.toNat_natCast,
          List.getD_eq_getElem grid [] (by omega),
          List.getD_eq_getElem _ 0 (by omega)]
  rw [hgrideq]

/-- C8, witness: the concrete valid 2 × 2 grid shifted by (1, 1) with wrap
and back by (−1, −1) returns the original grid. -/
theorem C8_shift_wrap_roundtrip_witness :
    ∃ g1 : Grid, exampleGrid.get_shifted 1 1 true = .ok g1 ∧
      g1.get_shifted (-1) (-1) true = .ok exampleGrid :=
  C8_shift_wrap_roundtrip exampleGrid (by decide) 1 1

end LedMatrix
